import Mathlib

/-!
Verification development for the TFLite jacdac host service
(`src/tfjacdac.ts`).  The TypeScript source is shallowly embedded:
byte buffers become `List Nat`, the mutable `TFLiteHost` object becomes an
explicit state record, external calls (`tf.invokeModelF`, `tf.loadModel`,
pipe reads) become explicit parameters (`Except` results, chunk lists),
and JavaScript number quirks (truthiness, `Math.idiv`, `>> 1`) are modelled
explicitly.  Float32 values are represented as rationals: every multiplier
the code builds is a power of two, and the claims under study concern the
value computed before the (out-of-scope) IEEE-754 encoding step.
-/

namespace TF

/-! ## Byte buffers (MakeCode `Buffer`) -/

/-- A MakeCode byte buffer: list of byte values. -/
abbrev Buf := List Nat

/-- MakeCode `Buffer.write(dstOff, src)`: overwrite bytes at `dstOff ..` with `src`,
never growing the buffer (writes past the end are clipped). -/
def bufWrite (b : Buf) (off : Nat) (src : Buf) : Buf :=
  b.take off ++ src.take (b.length - off) ++ b.drop (off + src.length)

/-- MakeCode `Buffer.shift(n)` for `n ≥ 0`: shift contents left by `n`, zero-filling
the freed tail; the length is unchanged. -/
def bufShift (b : Buf) (n : Nat) : Buf :=
  b.drop n ++ List.replicate (min n b.length) 0

/-- MakeCode `Buffer.slice(off, len)`. -/
def bufSlice (b : Buf) (off len : Nat) : Buf :=
  (b.drop off).take len

/-- Little-endian unsigned 16-bit read (`NumberFormat.UInt16LE`);
out-of-range bytes read as 0. -/
def readU16LE (b : Buf) (off : Nat) : Nat :=
  b.getD off 0 + 256 * b.getD (off + 1) 0

/-- Little-endian unsigned 32-bit read (`NumberFormat.UInt32LE`). -/
def readU32LE (b : Buf) (off : Nat) : Nat :=
  b.getD off 0 + 256 * b.getD (off + 1) 0 + 65536 * b.getD (off + 2) 0 +
    16777216 * b.getD (off + 3) 0

/-- Little-endian signed 32-bit read (`NumberFormat.Int32LE`). -/
def readI32LE (b : Buf) (off : Nat) : Int :=
  let u := readU32LE b off
  if u < 2147483648 then (u : Int) else (u : Int) - 4294967296

/-- Little-endian signed 16-bit read (`NumberFormat.Int16LE`). -/
def readI16LE (b : Buf) (off : Nat) : Int :=
  let u := readU16LE b off
  if u < 32768 then (u : Int) else (u : Int) - 65536

/-- Signed 8-bit read (`NumberFormat.Int8LE`). -/
def readI8 (b : Buf) (off : Nat) : Int :=
  let u := b.getD off 0
  if u < 128 then (u : Int) else (u : Int) - 256

/-! ## Sample types (`TFLiteSampleType` and `numberFmt`) -/

/-- The `TFLiteSampleType` enum: the six fixed-width element encodings. -/
inductive TFLiteSampleType where
  | U8 | I8 | U16 | I16 | U32 | I32
deriving DecidableEq

/-- The element width `Buffer.sizeOfNumberFormat(numberFmt(stype))`. -/
def sampleTypeSize : TFLiteSampleType → Nat
  | .U8 => 1
  | .I8 => 1
  | .U16 => 2
  | .I16 => 2
  | .U32 => 4
  | .I32 => 4

/-- Decode the `sample_type` config byte into the enum; the source's
`numberFmt` switch has no default case, so an unknown byte yields `none`
(the TypeScript code would crash on it). -/
def sampleTypeOfByte : Nat → Option TFLiteSampleType
  | 0x8 => some .U8
  | 0x88 => some .I8
  | 0x10 => some .U16
  | 0x90 => some .I16
  | 0x20 => some .U32
  | 0xa0 => some .I32
  | _ => none

/-- Decode one element of the given type at byte offset `off`. -/
def decodeElem (t : TFLiteSampleType) (b : Buf) (off : Nat) : Int :=
  match t with
  | .U8 => (b.getD off 0 : Int)
  | .I8 => readI8 b off
  | .U16 => (readU16LE b off : Int)
  | .I16 => readI16LE b off
  | .U32 => (readU32LE b off : Int)
  | .I32 => readI32LE b off

/-- MakeCode `Buffer.toArray(fmt)`: decode `⌊len / size⌋` consecutive elements. -/
def bufToArray (t : TFLiteSampleType) (b : Buf) : List Int :=
  (List.range (b.length / sampleTypeSize t)).map
    (fun i => decodeElem t b (i * sampleTypeSize t))

/-! ## Collector -/

/-- The `while (sh > 0) { mult /= 2; sh-- }` loop of the `Collector`
constructor: halve `m`, `n` times. -/
def halveIter : Nat → ℚ → ℚ
  | 0, m => m
  | n + 1, m => halveIter n (m / 2)

/-- The `while (sh < 0) { mult *= 2; sh++ }` loop: double `m`, `n` times. -/
def doubleIter : Nat → ℚ → ℚ
  | 0, m => m
  | n + 1, m => doubleIter n (m * 2)

/-- The multiplier `sampleMult` as computed from `sampleShift` by the two loops in the
`Collector` constructor (exact in binary floating point for `i8` shifts,
hence faithfully a rational). -/
def sampleMultOf (sh : Int) : ℚ :=
  if 0 < sh then halveIter sh.toNat 1 else doubleIter (-sh).toNat 1

/-- One input collector, as built by the `Collector` constructor from a
16-byte config entry. `lastSample` is its float32 staging buffer
(`numElts * 4` bytes). -/
structure Collector where
  devId : Option Buf
  serviceClass : Nat
  requiredServiceNum : Nat
  sampleType : TFLiteSampleType
  sampleShift : Int
  sampleMult : ℚ
  numElts : Nat
  lastSample : Buf
deriving DecidableEq

/-- The `Collector` constructor on a 16-byte entry
(`config.unpack("IBBBb", 8)` plus the device-id check at offset 0).
`none` when the `sample_type` byte is not a valid `TFLiteSampleType`. -/
def mkCollector (entry : Buf) : Option Collector :=
  match sampleTypeOfByte (entry.getD 14 0) with
  | none => none
  | some st =>
    let sampleSize := entry.getD 13 0
    let sh := readI8 entry 15
    let numElts := sampleSize / sampleTypeSize st
    some
      { devId := if readI32LE entry 0 = 0 then none else some (entry.take 8)
        serviceClass := readU32LE entry 8
        requiredServiceNum := entry.getD 12 0
        sampleType := st
        sampleShift := sh
        sampleMult := sampleMultOf sh
        numElts := numElts
        lastSample := List.replicate (numElts * 4) 0 }

/-- Value-level semantics of `Collector.handlePacket` on a matching
register-read report: the vector of float32 values written into
`lastSample`, namely each decoded element times `sampleMult`
(`arr[i] * this.sampleMult`). -/
def collectorStored (c : Collector) (data : Buf) : List ℚ :=
  (bufToArray c.sampleType data).map (fun v => (v : ℚ) * c.sampleMult)

/-! ## Host state (`TFLiteHost` fields plus the external stores it owns) -/

/-- Unsolicited packets the host emits (`sendReport`). Output vectors are
kept at value level (`packArray(res, Float32LE)` is injective on them). -/
inductive Report where
  | outputsReport (vec : List ℚ)
  | currentSample (bytes : Buf)
  | pipePort
deriving DecidableEq

/-- The mutable fields of `TFLiteHost`, together with the external state it
owns: the `binstore` flash region for the model blob and the two persisted
settings (`#jd-tflite-arenaSize`, `#jd-tflite-inputs`). -/
structure TFState where
  autoInvokeSamples : Nat
  execTime : Int
  outputs : List ℚ
  lastError : Option String
  collectors : List Collector
  lastSample : Option Int
  samplingInterval : Nat
  samplesInWindow : Nat
  sampleSize : Nat
  streamSamples : Nat
  samplesBuffer : Buf
  numSamples : Nat
  lastRunNumSamples : Int
  binTotalSize : Nat
  binRegion : Option Buf
  arenaHint : Option Nat
  inputSettings : Option Buf
deriving DecidableEq

/-- JavaScript truthiness of the nullable `lastError` string:
`undefined`/`null` and `""` are falsy. -/
def jsTruthyStr : Option String → Bool
  | none => false
  | some s => s != ""

/-- JavaScript falsiness of the numeric `lastSample` timestamp field:
`undefined` and `0` are falsy. -/
def jsFalsyNum : Option Int → Bool
  | none => true
  | some n => n == 0

/-- The `modelBuffer` getter: `null` when no flash region is allocated or
when its first `Int32LE` word reads `-1` (erased flash). -/
def modelBufferOf (s : TFState) : Option Buf :=
  match s.binRegion with
  | none => none
  | some r => if readI32LE r 0 = -1 then none else some r

/-- The `modelSize` getter / `ModelSize` register (0x184). -/
def modelSizeOf (s : TFState) : Nat :=
  match modelBufferOf s with
  | some m => m.length
  | none => 0

/-- The `LastError` register (0x188): `this.lastError || ""`. -/
def lastErrorText (s : TFState) : String :=
  s.lastError.getD ""

/-! ## Window buffer push -/

/-- The write loop of `pushData`: write each collector's `lastSample`
at consecutive offsets. -/
def writeAll : Buf → Nat → List Buf → Buf
  | b, _, [] => b
  | b, off, p :: ps => writeAll (bufWrite b off p) (off + p.length) ps

/-- The most recent frame, as sent by `sendLastSample`
(`samplesBuffer.slice(length - sampleSize, sampleSize)`). -/
def lastFrame (s : TFState) : Buf :=
  bufSlice s.samplesBuffer (s.samplesBuffer.length - s.sampleSize) s.sampleSize

/-- The `pushData` method: drop the oldest frame, append the fresh one (concatenated
collector `lastSample`s), bump `numSamples`, and stream the frame while the
one-shot `streamSamples` counter is positive. -/
def pushData (s : TFState) : TFState × List Report :=
  let b0 := bufShift s.samplesBuffer s.sampleSize
  let off := b0.length - s.sampleSize
  let b := writeAll b0 off (s.collectors.map (fun c => c.lastSample))
  let s1 : TFState := { s with samplesBuffer := b, numSamples := s.numSamples + 1 }
  if 0 < s1.streamSamples then
    let s2 : TFState := { s1 with streamSamples := s1.streamSamples - 1 }
    (s2, [Report.currentSample (lastFrame s2)])
  else (s1, [])

/-- Iterate `pushData` (the catch-up `while` loop of `_newData`). -/
def pushTimes : TFState → Nat → TFState × List Report
  | s, 0 => (s, [])
  | s, k + 1 =>
    let r := pushData s
    let r' := pushTimes r.1 k
    (r'.1, r.2 ++ r'.2)

/-! ## Timing reconciler (`_newData`) -/

/-- JavaScript `d >> 1` (arithmetic shift, i.e. floor division by two;
32-bit wrap-around is out of range for the timestamps involved). -/
def jsShr1 (d : Int) : Int := Int.fdiv d 2

/-- The frame count `Math.idiv(d + (d >> 1), samplingInterval)` computed by
`_newData` (`Math.idiv` truncates toward zero). -/
def nFramesOf (d interval : Int) : Int :=
  Int.tdiv (d + jsShr1 d) interval

/-- The elapsed time `timestamp - this.lastSample` after the first-event initialization
(`if (!this.lastSample) this.lastSample = timestamp`): 0 on the first
event (or when the stored tick is the falsy 0). -/
def elapsedOf (s : TFState) (t : Int) : Int :=
  if jsFalsyNum s.lastSample then 0 else t - s.lastSample.getD 0

/-- The `_newData(timestamp, isPost)` handler. Returns the new state, whether a
background model run was scheduled (`control.runInBackground(runModel)`),
and the reports emitted by the pushes. -/
def newData (s0 : TFState) (t : Int) (isPost : Bool) : TFState × Bool × List Report :=
  let s := if jsFalsyNum s0.lastSample then { s0 with lastSample := some t } else s0
  let n := nFramesOf (elapsedOf s0 t) (s0.samplingInterval : Int)
  if n = 0 then (s, false, [])
  else if isPost then
    let s1 := { s with lastSample := some t }
    let s2 := (pushData s1).1
    if s2.autoInvokeSamples ≠ 0 ∧ 0 ≤ s2.lastRunNumSamples ∧
        (s2.autoInvokeSamples : Int) ≤ (s2.numSamples : Int) - s2.lastRunNumSamples then
      ({ s2 with lastRunNumSamples := -1 }, true, (pushData s1).2)
    else (s2, false, (pushData s1).2)
  else
    let k := (min (n - 1) 5).toNat
    ((pushTimes s k).1, false, (pushTimes s k).2)

/-! ## Inference scheduler (`runModel`) -/

/-- The `runModel` method, with the external interpreter call `tf.invokeModelF`
abstracted as its result `invokeRes` and the two `control.micros()` reads
as `t0`, `t1`.  A sticky (truthy) `lastError` skips the run entirely; a
(string) throw from the interpreter sets it; in every executed case the
`Outputs` register report is emitted and the run bookkeeping updated. -/
def runModel (s : TFState) (invokeRes : Except String (List ℚ)) (t0 t1 : Int) :
    TFState × List Report :=
  if jsTruthyStr s.lastError then (s, [])
  else
    let startSamples := s.numSamples
    let s :=
      match invokeRes with
      | .ok res => { s with outputs := res }
      | .error e => { s with lastError := some e }
    let s := { s with execTime := t1 - t0, lastRunNumSamples := (startSamples : Int) }
    (s, [Report.outputsReport s.outputs])

/-! ## Model store (`eraseModel`, `loadModel`) -/

/-- The `eraseModel` method: free the interpreter, erase the flash blob region and
remove the persisted arena-size hint. -/
def eraseModelFn (s : TFState) : TFState :=
  { s with binRegion := none, arenaHint := none }

/-- The `loadModel` method, with the external `tf.loadModel` call abstracted as its
result `loadRes` and `tf.arenaBytes()` as `arenaBytes`.  Clears the sticky
error, reports "no model" when the blob is absent, records the measured
arena size (+32) when no hint was persisted, and captures a load failure
into the sticky error. -/
def loadModelStep (s : TFState) (loadRes : Except String Unit) (arenaBytes : Nat) :
    TFState :=
  let s := { s with lastError := none }
  match modelBufferOf s with
  | none => { s with lastError := some "no model" }
  | some _ =>
    match loadRes with
    | .ok _ =>
      match s.arenaHint with
      | none => { s with arenaHint := some (arenaBytes + 32) }
      | some _ => s
    | .error e => { s with lastError := some e }

/-! ## Configuration (`configureInputs` and the `Inputs` register write) -/

/-- The `while (off < config.length)` loop of `configureInputs`: build one
`Collector` per 16-byte entry (`config.slice(off, entrySize)`), in order.
`none` if any entry has an invalid `sample_type` byte.  The loop advances
`off` by 16, so `config.length + 1` iterations always suffice; the `fuel`
argument makes the recursion structural. -/
def parseEntriesAux (config : Buf) : Nat → Nat → Option (List Collector)
  | _, 0 => some []
  | off, fuel + 1 =>
    if off < config.length then
      match mkCollector (bufSlice config off 16) with
      | none => none
      | some c => (parseEntriesAux config (off + 16) fuel).map (fun cs => c :: cs)
    else some []

/-- The collector list built by `configureInputs` from the blob. -/
def parseEntries (config : Buf) (off : Nat) : Option (List Collector) :=
  parseEntriesAux config off (config.length + 1)

/-- The `configureInputs` method: re-read the persisted configuration blob, rebuild
all collectors, recompute the frame size as the total `lastSample` byte
size, allocate a fresh window buffer of `samplesInWindow * frameSz` zero
bytes and reset the sample counters.  A missing blob is a no-op; an entry
the `Collector` constructor would crash on yields `none`.  The calls that
only affect remote devices (`coll.destroy()`, the two `setRegInt`
streaming writes) are external and not part of the host state. -/
def configureInputs (s : TFState) : Option TFState :=
  match s.inputSettings with
  | none => some s
  | some config =>
    match parseEntries config 8 with
    | none => none
    | some colls =>
      let frameSz := (colls.map (fun c => c.lastSample.length)).sum
      some
        { s with
          samplingInterval := readU16LE config 0
          samplesInWindow := readU16LE config 2
          collectors := colls
          sampleSize := frameSz
          samplesBuffer := List.replicate (readU16LE config 2 * frameSz) 0
          numSamples := 0
          lastRunNumSamples := 0 }

/-- The `TFLiteReg.Inputs | CMD_SET_REG` branch of `handlePacket`: a write
that is byte-identical to the stored configuration returns immediately;
otherwise the payload is persisted and `configureInputs` runs. -/
def handleSetInputs (s : TFState) (data : Buf) : Option TFState :=
  if (match s.inputSettings with
      | some cur => data == cur
      | none => false) then some s
  else configureInputs { s with inputSettings := some data }

/-! ## Upload handler (`readModel`) -/

/-- How the chunk-streaming loop of `readModel` ended. -/
inductive UploadOutcome where
  | streamClosed
  | alignError
  | completed
deriving DecidableEq

/-- Result of the chunk-streaming loop: flash region contents, the staged
8-byte header buffer, cumulative bytes received, and how it ended. -/
structure UploadRes where
  store : Buf
  head : Buf
  off : Nat
  outcome : UploadOutcome
deriving DecidableEq

/-- The `while (true)` pipe loop of `readModel`.  The first chunk's first
8 bytes are staged in `head` and its remainder written at offset 8; later
chunks are written at their cumulative offset.  When `off` reaches `sz`
the staged header is finally written at offset 0; an exhausted chunk list
is the remote closing the stream (`pipe.read()` returning `null`); a
cumulative offset that is not a multiple of 8 before the end aborts
(`throw "invalid model stream size"`). -/
def uploadLoop (store head : Buf) (off sz : Nat) : List Buf → UploadRes
  | [] => ⟨store, head, off, .streamClosed⟩
  | buf :: rest =>
    let store' := if off = 0 then bufWrite store 8 (buf.drop 8) else bufWrite store off buf
    let head' := if off = 0 then bufWrite head 0 buf else head
    let off' := off + buf.length
    if sz ≤ off' then ⟨bufWrite store' 0 head', head', off', .completed⟩
    else if off' % 8 ≠ 0 then ⟨store', head', off', .alignError⟩
    else uploadLoop store' head' off' sz rest

/-- The `readModel` method (the `SetModel` command): reject oversized declarations
before any allocation; otherwise erase the current model, allocate an
erased (`0xff`-filled) flash region of `sz` bytes, reply with the pipe
port and stream the body; on completion write the header and reload the
model.  Returns the new state, the reports sent, and whether the pipe was
opened. -/
def readModel (s : TFState) (sz : Nat) (chunks : List Buf)
    (loadRes : Except String Unit) (arenaBytes : Nat) : TFState × List Report × Bool :=
  if (s.binTotalSize : Int) - 8 < (sz : Int) then (s, [], false)
  else
    let s1 := eraseModelFn s
    let r := uploadLoop (List.replicate sz 255) (List.replicate 8 0) 0 sz chunks
    let s2 : TFState := { s1 with binRegion := some r.store }
    match r.outcome with
    | .completed => (loadModelStep s2 loadRes arenaBytes, [Report.pipePort], true)
    | _ => (s2, [Report.pipePort], true)

/-! ## Spec-side definitions (for comparison against the source) -/

/-- Following the spec's words: the declared `sampleSizeBytes` field (byte
13) of each 16-byte entry of a configuration blob, in order (fuel-based
structural recursion over the same 16-byte stride). -/
def declaredSampleSizesAux (config : Buf) : Nat → Nat → List Nat
  | _, 0 => []
  | off, fuel + 1 =>
    if off < config.length then
      config.getD (off + 13) 0 :: declaredSampleSizesAux config (off + 16) fuel
    else []

/-- The declared per-collector sample sizes of a configuration blob. -/
def declaredSampleSizes (config : Buf) (off : Nat) : List Nat :=
  declaredSampleSizesAux config off (config.length + 1)

/-- Following the spec's words: "Window Buffer length ≡ samplesInWindow ×
Σ sampleSizeBytes_i" for a configuration blob. -/
def specWindowBytes (config : Buf) : Nat :=
  readU16LE config 2 * (declaredSampleSizes config 8).sum

/-- A neutral concrete host state for witnesses and counterexamples. -/
def baseState : TFState :=
  { autoInvokeSamples := 0
    execTime := 0
    outputs := []
    lastError := none
    collectors := []
    lastSample := none
    samplingInterval := 100
    samplesInWindow := 0
    sampleSize := 0
    streamSamples := 0
    samplesBuffer := []
    numSamples := 0
    lastRunNumSamples := 0
    binTotalSize := 65536
    binRegion := none
    arenaHint := none
    inputSettings := none }

/-! ## Helper lemmas: buffer algebra -/

theorem bufWrite_length (b : Buf) (off : Nat) (src : Buf) :
    (bufWrite b off src).length = b.length := by
  simp only [bufWrite, List.length_append, List.length_take, List.length_drop]
  omega

theorem bufWrite_of_fits {b : Buf} {off : Nat} {src : Buf}
    (h : off + src.length ≤ b.length) :
    bufWrite b off src = b.take off ++ src ++ b.drop (off + src.length) := by
  have : src.take (b.length - off) = src := List.take_of_length_le (by omega)
  rw [bufWrite, this]

theorem bufWrite_take_of_le {b : Buf} {off : Nat} {src : Buf} {k : Nat}
    (hk : k ≤ off) (hkb : k ≤ b.length) :
    (bufWrite b off src).take k = b.take k := by
  have h1 : k ≤ (b.take off).length := by
    rw [List.length_take]
    omega
  rw [bufWrite, List.append_assoc, List.take_append_of_le_length h1, List.take_take]
  congr 1
  omega

theorem writeAll_eq {ps : List Buf} {b : Buf} {off : Nat}
    (h : off + (ps.map List.length).sum ≤ b.length) :
    writeAll b off ps =
      b.take off ++ ps.flatten ++ b.drop (off + (ps.map List.length).sum) := by
  induction ps generalizing b off with
  | nil => simp [writeAll]
  | cons p rest ih =>
    simp only [List.map_cons, List.sum_cons, List.flatten_cons] at h ⊢
    have hfit : off + p.length ≤ b.length := by omega
    have hwl : (bufWrite b off p).length = b.length := bufWrite_length ..
    rw [writeAll, ih (by omega)]
    rw [bufWrite_of_fits hfit]
    have hlen1 : (b.take off ++ p).length = off + p.length := by
      simp only [List.length_append, List.length_take]
      omega
    have htake : ((b.take off ++ p) ++ b.drop (off + p.length)).take (off + p.length) =
        b.take off ++ p := List.take_left' hlen1
    have hdrop :
        ((b.take off ++ p) ++ b.drop (off + p.length)).drop
            (off + p.length + (rest.map List.length).sum) =
          b.drop (off + p.length + (rest.map List.length).sum) := by
      rw [← hlen1, List.drop_append, List.drop_drop]
    rw [htake, hdrop]
    simp only [List.append_assoc, Nat.add_assoc]

/-! ## Helper lemmas: the power-of-two multiplier -/

theorem halveIter_eq (n : Nat) (m : ℚ) : halveIter n m = m / 2 ^ n := by
  induction n generalizing m with
  | zero => simp [halveIter]
  | succ k ih =>
    rw [halveIter, ih, div_div, ← pow_succ']

theorem doubleIter_eq (n : Nat) (m : ℚ) : doubleIter n m = m * 2 ^ n := by
  induction n generalizing m with
  | zero => simp [doubleIter]
  | succ k ih =>
    rw [doubleIter, ih, mul_assoc, ← pow_succ']

theorem sampleMultOf_eq (sh : Int) : sampleMultOf sh = (2 : ℚ) ^ (-sh) := by
  rw [sampleMultOf]
  by_cases h : 0 < sh
  · rw [if_pos h, halveIter_eq, one_div]
    conv_rhs => rw [show -sh = -(sh.toNat : Int) by omega]
    rw [zpow_neg, zpow_natCast]
  · rw [if_neg h, doubleIter_eq, one_mul]
    conv_rhs => rw [show -sh = ((-sh).toNat : Int) by omega]
    rw [zpow_natCast]

/-! ## Helper lemmas: the frame-count arithmetic of `_newData` -/

theorem int_fdiv_ofNat (m n : Nat) :
    Int.fdiv (Int.ofNat m) (Int.ofNat n) = Int.ofNat (m / n) := by
  cases m with
  | zero => simp [Int.fdiv]
  | succ k => rfl

/-- Division identity `⌊(d + ⌊d/2⌋) / I⌋ = ⌊3d / 2I⌋` for natural `d` and positive `I`:
the value computed by `_newData` is 1.5× the elapsed-interval ratio,
rounded down. -/
theorem nat_threehalves_div (d I : Nat) (hI : 0 < I) :
    (d + d / 2) / I = 3 * d / (2 * I) := by
  have hmod : 2 * (d / 2) + d % 2 = d := Nat.div_add_mod d 2
  have hr : d % 2 < 2 := Nat.mod_lt _ (by norm_num)
  have hdm : I * ((d + d / 2) / I) + (d + d / 2) % I = d + d / 2 :=
    Nat.div_add_mod (d + d / 2) I
  have hs : (d + d / 2) % I < I := Nat.mod_lt _ hI
  have hlin1 : (d + d / 2) / I * (2 * I) = 2 * (I * ((d + d / 2) / I)) := by ring
  have hlin2 : ((d + d / 2) / I + 1) * (2 * I) = 2 * (I * ((d + d / 2) / I)) + 2 * I := by
    ring
  symm
  apply Nat.div_eq_of_lt_le
  · omega
  · omega

theorem nFramesOf_natCast (d I : Nat) (hI : 0 < I) :
    nFramesOf (d : Int) (I : Int) = ((3 * d / (2 * I) : Nat) : Int) := by
  have h1 : jsShr1 (d : Int) = ((d / 2 : Nat) : Int) := by
    rw [jsShr1]
    rw [show ((d : Int)) = Int.ofNat d from rfl, show ((2 : Int)) = Int.ofNat 2 from rfl,
      int_fdiv_ofNat]
    rfl
  rw [nFramesOf, h1]
  rw [show (d : Int) + ((d / 2 : Nat) : Int) = ((d + d / 2 : Nat) : Int) by push_cast; ring]
  rw [← Int.ofNat_tdiv]
  rw [nat_threehalves_div d I hI]

/-! ## Helper lemmas: `pushData` -/

theorem pushData_samplesBuffer (s : TFState) :
    (pushData s).1.samplesBuffer =
      writeAll (bufShift s.samplesBuffer s.sampleSize)
        ((bufShift s.samplesBuffer s.sampleSize).length - s.sampleSize)
        (s.collectors.map (fun c => c.lastSample)) := by
  rw [pushData]
  split <;> rfl

theorem pushData_numSamples (s : TFState) :
    (pushData s).1.numSamples = s.numSamples + 1 := by
  rw [pushData]
  split <;> rfl

theorem pushData_frame (s : TFState) :
    (pushData s).1.lastRunNumSamples = s.lastRunNumSamples ∧
    (pushData s).1.autoInvokeSamples = s.autoInvokeSamples ∧
    (pushData s).1.lastError = s.lastError ∧
    (pushData s).1.lastSample = s.lastSample ∧
    (pushData s).1.collectors = s.collectors ∧
    (pushData s).1.sampleSize = s.sampleSize ∧
    (pushData s).1.samplesInWindow = s.samplesInWindow ∧
    (pushData s).1.inputSettings = s.inputSettings := by
  rw [pushData]
  split <;> exact ⟨rfl, rfl, rfl, rfl, rfl, rfl, rfl, rfl⟩

/-- The window-buffer effect of one push, stated over the frame structure:
if the buffer currently holds `samplesInWindow` frames of `sampleSize`
bytes each, and the collectors' staged samples total `sampleSize` bytes,
then the push drops the oldest frame and appends the concatenation of the
collectors' `lastSample` buffers. -/
theorem pushData_window {s : TFState} {frames : List Buf}
    (hbuf : s.samplesBuffer = frames.flatten)
    (hlen : frames.length = s.samplesInWindow)
    (heach : ∀ f ∈ frames, f.length = s.sampleSize)
    (hW : 0 < s.samplesInWindow)
    (hF : ((s.collectors.map (fun c => c.lastSample)).map List.length).sum = s.sampleSize) :
    (pushData s).1.samplesBuffer =
      (frames.drop 1 ++ [(s.collectors.map (fun c => c.lastSample)).flatten]).flatten := by
  cases frames with
  | nil =>
    rw [← hlen] at hW
    simp at hW
  | cons f0 rest =>
    have hf0 : f0.length = s.sampleSize := heach f0 (by simp)
    have hrest : (rest.map List.length).sum = rest.length * s.sampleSize := by
      rw [List.sum_eq_card_nsmul (rest.map List.length) s.sampleSize]
      · simp [smul_eq_mul]
      · intro x hx
        obtain ⟨f, hf, rfl⟩ := List.mem_map.mp hx
        exact heach f (by simp [hf])
    have hW1 : rest.length + 1 = s.samplesInWindow := by
      simpa using hlen
    have hWW : s.sampleSize ≤ s.samplesInWindow * s.sampleSize :=
      Nat.le_mul_of_pos_left _ hW
    have hflatrest : rest.flatten.length = rest.length * s.sampleSize := by
      rw [List.length_flatten, hrest]
    have hbuflen : s.samplesBuffer.length = s.samplesInWindow * s.sampleSize := by
      rw [hbuf, List.flatten_cons, List.length_append, hflatrest, hf0, ← hW1,
        Nat.succ_mul]
      omega
    -- the shifted buffer
    have hshift : bufShift s.samplesBuffer s.sampleSize =
        rest.flatten ++ List.replicate s.sampleSize 0 := by
      rw [bufShift]
      congr 1
      · rw [hbuf, List.flatten_cons, List.drop_left' hf0]
      · rw [hbuflen]
        congr 1
        omega
    have hshiftlen : (bufShift s.samplesBuffer s.sampleSize).length =
        s.samplesInWindow * s.sampleSize := by
      rw [hshift, List.length_append, hflatrest, List.length_replicate, ← hW1,
        Nat.succ_mul]
    have hrestlen : rest.flatten.length = s.samplesInWindow * s.sampleSize - s.sampleSize := by
      rw [hflatrest, ← hW1, Nat.succ_mul]
      omega
    rw [pushData_samplesBuffer, hshiftlen]
    rw [writeAll_eq (by rw [hF, hshiftlen]; omega)]
    rw [hF, hshift]
    have htake : (rest.flatten ++ List.replicate s.sampleSize 0).take
        (s.samplesInWindow * s.sampleSize - s.sampleSize) = rest.flatten :=
      List.take_left' hrestlen
    have hdrop : (rest.flatten ++ List.replicate s.sampleSize 0).drop
        (s.samplesInWindow * s.sampleSize - s.sampleSize + s.sampleSize) = [] := by
      apply List.drop_eq_nil_of_le
      simp only [List.length_append, List.length_replicate, hrestlen]
      omega
    rw [htake, hdrop]
    simp

/-! ## Helper lemmas: the upload loop -/

/-- Invariant of the chunk-streaming loop: the region keeps its length; as
long as the loop has not completed, the first 8 bytes (the header slot)
still hold erased flash; completion implies the cumulative offset reached
the declared size; and the offset never exceeds the bytes received. -/
theorem uploadLoop_inv (chunks : List Buf) (store head : Buf) (off sz : Nat)
    (hlen : store.length = sz) (h8 : 8 ≤ sz) (hoff8 : off % 8 = 0)
    (hpre : store.take 8 = List.replicate 8 255) :
    (uploadLoop store head off sz chunks).store.length = sz ∧
    ((uploadLoop store head off sz chunks).outcome ≠ .completed →
      (uploadLoop store head off sz chunks).store.take 8 = List.replicate 8 255) ∧
    ((uploadLoop store head off sz chunks).outcome = .completed →
      sz ≤ (uploadLoop store head off sz chunks).off) ∧
    (uploadLoop store head off sz chunks).off ≤ off + (chunks.map List.length).sum := by
  induction chunks generalizing store head off with
  | nil =>
    rw [uploadLoop]
    exact ⟨hlen, fun _ => hpre, fun h => by simp at h, by simp⟩
  | cons buf rest ih =>
    rw [uploadLoop]
    have hlen' : (if off = 0 then bufWrite store 8 (buf.drop 8)
        else bufWrite store off buf).length = sz := by
      split <;> rw [bufWrite_length, hlen]
    have hpre' : (if off = 0 then bufWrite store 8 (buf.drop 8)
        else bufWrite store off buf).take 8 = List.replicate 8 255 := by
      split_ifs with hz
      · rw [bufWrite_take_of_le (le_refl 8) (by omega), hpre]
      · rw [bufWrite_take_of_le (by omega) (by omega), hpre]
    by_cases hdone : sz ≤ off + buf.length
    · rw [if_pos hdone]
      refine ⟨by rw [bufWrite_length]; exact hlen', fun h => absurd rfl h, fun _ => hdone, ?_⟩
      simp only [List.map_cons, List.sum_cons]
      omega
    · rw [if_neg hdone]
      by_cases halign : (off + buf.length) % 8 ≠ 0
      · rw [if_pos halign]
        refine ⟨hlen', fun _ => hpre', fun h => by simp at h, ?_⟩
        simp only [List.map_cons, List.sum_cons]
        omega
      · rw [if_neg halign]
        have hrec := ih
          (if off = 0 then bufWrite store 8 (buf.drop 8) else bufWrite store off buf)
          (if off = 0 then bufWrite head 0 buf else head)
          (off + buf.length) hlen' (by omega) hpre'
        refine ⟨hrec.1, hrec.2.1, hrec.2.2.1, ?_⟩
        have := hrec.2.2.2
        simp only [List.map_cons, List.sum_cons]
        omega

/-- A region whose first 8 bytes are erased flash has its first `Int32LE`
word equal to `-1`. -/
theorem readI32LE_of_take8 {b : Buf} (h : b.take 8 = List.replicate 8 255) :
    readI32LE b 0 = -1 := by
  have hb : b = List.replicate 8 255 ++ b.drop 8 := by
    conv_lhs => rw [← List.take_append_drop 8 b]
    rw [h]
  rw [hb]
  simp only [readI32LE, readU32LE]
  rw [List.getD_append _ _ _ 0 (by decide), List.getD_append _ _ _ 1 (by decide),
    List.getD_append _ _ _ 2 (by decide), List.getD_append _ _ _ 3 (by decide)]
  decide

/-- Shared consequence for aborted uploads: an accepted `SetModel` whose
chunk loop does not complete leaves the header slot erased, the model
absent (`modelBuffer == null`, `modelSize == 0`) and the sticky error
untouched. -/
theorem readModel_abort (s : TFState) (sz : Nat) (chunks : List Buf)
    (loadRes : Except String Unit) (arenaBytes : Nat)
    (hacc : (sz : Int) ≤ (s.binTotalSize : Int) - 8) (h8 : 8 ≤ sz)
    (habort : (uploadLoop (List.replicate sz 255) (List.replicate 8 0) 0 sz
        chunks).outcome ≠ .completed) :
    modelBufferOf (readModel s sz chunks loadRes arenaBytes).1 = none ∧
    modelSizeOf (readModel s sz chunks loadRes arenaBytes).1 = 0 ∧
    (readModel s sz chunks loadRes arenaBytes).1.lastError = s.lastError := by
  have hneg : ¬((s.binTotalSize : Int) - 8 < (sz : Int)) := by omega
  have htake0 : (List.replicate sz (255 : Nat)).take 8 = List.replicate 8 255 := by
    rw [List.take_replicate]
    congr 1
    omega
  have hinv := uploadLoop_inv chunks (List.replicate sz 255) (List.replicate 8 0) 0 sz
    (by simp) h8 (by simp) htake0
  have htake8 := hinv.2.1 habort
  have hreg : readI32LE (uploadLoop (List.replicate sz 255) (List.replicate 8 0) 0 sz
      chunks).store 0 = -1 := readI32LE_of_take8 htake8
  simp only [readModel, if_neg hneg]
  cases hout : (uploadLoop (List.replicate sz 255) (List.replicate 8 0) 0 sz
      chunks).outcome with
  | completed => exact absurd hout habort
  | streamClosed =>
    refine ⟨?_, ?_, rfl⟩
    · simp only [modelBufferOf, hreg, if_pos]
    · simp only [modelSizeOf, modelBufferOf, hreg, if_pos]
  | alignError =>
    refine ⟨?_, ?_, rfl⟩
    · simp only [modelBufferOf, hreg, if_pos]
    · simp only [modelSizeOf, modelBufferOf, hreg, if_pos]

theorem pushData_lastError (s : TFState) : (pushData s).1.lastError = s.lastError :=
  (pushData_frame s).2.2.1

theorem pushData_lastRun (s : TFState) :
    (pushData s).1.lastRunNumSamples = s.lastRunNumSamples :=
  (pushData_frame s).1

theorem pushData_auto (s : TFState) :
    (pushData s).1.autoInvokeSamples = s.autoInvokeSamples :=
  (pushData_frame s).2.1

theorem pushTimes_lastError (s : TFState) (k : Nat) :
    (pushTimes s k).1.lastError = s.lastError := by
  induction k generalizing s with
  | zero => rfl
  | succ n ih =>
    have h : (pushTimes s (n + 1)).1 = (pushTimes (pushData s).1 n).1 := rfl
    rw [h, ih, pushData_lastError]

/-- After the first-tick initialization, the post-phase `lastSample := t`
assignment makes the two initialization branches coincide. -/
theorem newData_post_collapse (s : TFState) (t : Int) :
    ({ (if jsFalsyNum s.lastSample then { s with lastSample := some t } else s) with
        lastSample := some t } : TFState) = { s with lastSample := some t } := by
  split_ifs <;> rfl

theorem newData_lastError (s : TFState) (t : Int) (p : Bool) :
    (newData s t p).1.lastError = s.lastError := by
  simp only [newData]
  split_ifs <;>
    simp [pushData_lastError, pushTimes_lastError, newData_post_collapse]

/-! ## Claim theorems -/

/-- Claim C7: a `SetModel` whose declared size exceeds the storage
capacity minus the 8-byte header overhead is rejected before any
allocation: the state is returned exactly unchanged, no reply is sent and
no stream pipe is opened. -/
theorem claim_C7_reject (s : TFState) (sz : Nat) (chunks : List Buf)
    (loadRes : Except String Unit) (arenaBytes : Nat)
    (h : (s.binTotalSize : Int) - 8 < (sz : Int)) :
    readModel s sz chunks loadRes arenaBytes = (s, [], false) := by
  simp only [readModel]
  rw [if_pos h]

/-- Witness for C7: declared size 65535 against a 65536-byte store is
rejected with no state change. -/
theorem claim_C7_witness :
    readModel baseState 65535 [] (Except.ok ()) 0 = (baseState, [], false) :=
  claim_C7_reject baseState 65535 [] (Except.ok ()) 0 (by decide)

/-- Claim C10: every run not skipped by a pre-existing sticky error emits
exactly one `Outputs` register report, even when the model invocation
throws; on failure the report carries the previous output vector, which
is left unchanged, and the run-time and start-mark fields are still
updated. -/
theorem claim_C10_run_report (s : TFState) (invokeRes : Except String (List ℚ))
    (t0 t1 : Int) (h : jsTruthyStr s.lastError = false) :
    (runModel s invokeRes t0 t1).2 =
      [Report.outputsReport (runModel s invokeRes t0 t1).1.outputs] ∧
    (∀ e, invokeRes = .error e →
      (runModel s invokeRes t0 t1).1.outputs = s.outputs ∧
      (runModel s invokeRes t0 t1).2 = [Report.outputsReport s.outputs]) ∧
    (runModel s invokeRes t0 t1).1.execTime = t1 - t0 ∧
    (runModel s invokeRes t0 t1).1.lastRunNumSamples = (s.numSamples : Int) := by
  have hne : jsTruthyStr s.lastError ≠ true := by simp [h]
  cases invokeRes with
  | ok res => simp [runModel, hne]
  | error e => simp [runModel, hne]

/-- Witness for C10: a failing run on an error-free host reports the old
(empty) output vector and updates the bookkeeping. -/
theorem claim_C10_witness :
    (runModel baseState (.error "tensor arena too small") 0 7).1.outputs = [] ∧
    (runModel baseState (.error "tensor arena too small") 0 7).2 =
      [Report.outputsReport []] ∧
    (runModel baseState (.error "tensor arena too small") 0 7).1.execTime = 7 := by
  have h := claim_C10_run_report baseState (.error "tensor arena too small") 0 7 rfl
  exact ⟨(h.2.1 _ rfl).1, (h.2.1 _ rfl).2, h.2.2.1⟩

/-- Claim C4 counterexample: at elapsed `d = 200` and interval `I = 100`
the code computes `nFrames = ⌊(200 + 100)/100⌋ = 3` frames, while
round-half-up of `d / I`, i.e. `(2d + I)/(2I)`, is 2. -/
theorem claim_C4_counterexample :
    nFramesOf 200 100 = 3 ∧ (2 * 200 + 100) / (2 * 100) = 2 ∧ (3 : Int) ≠ 2 :=
  ⟨by decide, by decide, by decide⟩

/-- Claim C4 (amended): for elapsed `d ≥ 0` and interval `I > 0` the frame
count computed by `_newData` equals `⌊(d + ⌊d/2⌋)/I⌋ = ⌊3d/(2I)⌋` — one and
a half times the elapsed-over-interval ratio, rounded down, not
round-half-up of `d/I` — and a zero frame count changes neither the window
buffer nor the sample counter, and schedules nothing. -/
theorem claim_C4_frame_count (s : TFState) (t : Int) (isPost : Bool) (d I : Nat)
    (hI : 0 < I) :
    nFramesOf (d : Int) (I : Int) = ((3 * d / (2 * I) : Nat) : Int) ∧
    (nFramesOf (elapsedOf s t) (s.samplingInterval : Int) = 0 →
      (newData s t isPost).1.samplesBuffer = s.samplesBuffer ∧
      (newData s t isPost).1.numSamples = s.numSamples ∧
      (newData s t isPost).2.1 = false) := by
  refine ⟨nFramesOf_natCast d I hI, fun h0 => ?_⟩
  simp only [newData]
  rw [if_pos h0]
  split_ifs <;> exact ⟨rfl, rfl, rfl⟩

/-- Witness for C4: the amended formula at `d = 150`, `I = 100` gives
`⌊450/200⌋ = 2` frames. -/
theorem claim_C4_witness :
    nFramesOf (150 : Int) (100 : Int) = ((3 * 150 / (2 * 100) : Nat) : Int) ∧
    nFramesOf (150 : Int) (100 : Int) = 2 :=
  ⟨(claim_C4_frame_count baseState 0 false 150 100 (by decide)).1, by decide⟩

/-- A 16-byte config entry: wildcard device, one U8 element
(`sample_size = 1`), scale-exponent byte `sample_shift = +1`. -/
def entryShift1 : Buf := [0, 0, 0, 0, 0, 0, 0, 0, 0, 0, 0, 0, 0, 1, 8, 1]

/-- The collector the `Collector` constructor builds from `entryShift1`. -/
def collShift1 : Collector :=
  { devId := none
    serviceClass := 0
    requiredServiceNum := 0
    sampleType := .U8
    sampleShift := 1
    sampleMult := sampleMultOf 1
    numElts := 1
    lastSample := List.replicate 4 0 }

theorem mkCollector_entryShift1 : mkCollector entryShift1 = some collShift1 := rfl

/-- Claim C3 counterexample: for the collector configured with scale
exponent byte `e = 1`, a report with decoded element 3 is stored as
`3 · 2⁻¹ = 3/2`, not `3 · 2¹ = 6`. -/
theorem claim_C3_counterexample :
    collectorStored collShift1 [3] = [(3 : ℚ) / 2] ∧
    (3 : ℚ) * (2 : ℚ) ^ (readI8 entryShift1 15) ≠ (3 : ℚ) / 2 := by
  constructor
  · have h2 : collectorStored collShift1 [3] = [((3 : Int) : ℚ) * sampleMultOf 1] := rfl
    rw [h2, sampleMultOf_eq]
    norm_num
  · have h1 : readI8 entryShift1 15 = 1 := by decide
    rw [h1]
    norm_num

/-- Claim C3 (amended): every collector built from a config entry with
scale-exponent byte `e` multiplies each decoded element by `2^(−e)` — the
shift semantics of `sample_shift`, inverse to the claimed `2^e` — before
storing it as float32 into the last-sample vector. -/
theorem claim_C3_scaling (entry : Buf) (c : Collector) (data : Buf)
    (h : mkCollector entry = some c) :
    collectorStored c data =
      (bufToArray c.sampleType data).map
        (fun v => (v : ℚ) * (2 : ℚ) ^ (-(readI8 entry 15))) := by
  rw [mkCollector] at h
  cases hst : sampleTypeOfByte (entry.getD 14 0) with
  | none => rw [hst] at h; cases h
  | some st =>
    rw [hst] at h
    have hc := Option.some.inj h
    subst hc
    simp only [collectorStored, sampleMultOf_eq]

/-- Witness for C3: the `entryShift1` collector stores `7 · 2⁻¹`. -/
theorem claim_C3_witness :
    collectorStored collShift1 [7] =
      (bufToArray collShift1.sampleType [7]).map
        (fun v => (v : ℚ) * (2 : ℚ) ^ (-(readI8 entryShift1 15))) :=
  claim_C3_scaling entryShift1 collShift1 [7] mkCollector_entryShift1

/-- Claim C6 counterexample: a run that throws the empty string sets the
sticky error to `""`, which is falsy, so the very next run attempt still
invokes the model (its outputs change from `[]` to `[7]`). -/
theorem claim_C6_counterexample :
    (runModel baseState (.error "") 0 1).1.lastError = some "" ∧
    (runModel (runModel baseState (.error "") 0 1).1 (.ok [(7 : ℚ)]) 0 1).1.outputs
        = [(7 : ℚ)] ∧
    baseState.outputs ≠ [(7 : ℚ)] := by
  refine ⟨rfl, rfl, by simp [baseState]⟩

/-- Claim C6 (amended): a failing run records the thrown error text in
the sticky `lastError`; when that text is nonempty (truthy) every
subsequent run attempt returns immediately, invoking nothing and emitting
nothing; the sample-collection path never modifies the sticky error; and
`loadModel` leaves `lastError` cleared exactly when a model blob is
present and the interpreter load succeeds. -/
theorem claim_C6_sticky_error :
    (∀ s : TFState, ∀ e t0 t1, jsTruthyStr s.lastError = false →
      (runModel s (.error e) t0 t1).1.lastError = some e) ∧
    (∀ s : TFState, ∀ res t0 t1, jsTruthyStr s.lastError = true →
      runModel s res t0 t1 = (s, [])) ∧
    (∀ s : TFState, ∀ t p, (newData s t p).1.lastError = s.lastError) ∧
    (∀ s : TFState, ∀ loadRes arenaBytes,
      (loadModelStep s loadRes arenaBytes).lastError = none ↔
        modelBufferOf s ≠ none ∧ loadRes = .ok ()) := by
  refine ⟨?_, ?_, newData_lastError, ?_⟩
  · intro s e t0 t1 h
    have hne : jsTruthyStr s.lastError ≠ true := by simp [h]
    simp [runModel, hne]
  · intro s res t0 t1 h
    simp [runModel, h]
  · intro s loadRes arenaBytes
    have hmb : modelBufferOf { s with lastError := none } = modelBufferOf s := rfl
    simp only [loadModelStep, hmb]
    cases hb : modelBufferOf s with
    | none => simp [hb]
    | some m =>
      cases loadRes with
      | ok u =>
        cases ha : s.arenaHint <;> simp [ha, hb]
      | error e => simp [hb]

/-- Witness for C6: a truthy sticky error makes a run attempt a no-op. -/
theorem claim_C6_witness :
    runModel { baseState with lastError := some "model failed" } (.ok [(1 : ℚ)]) 0 1 =
      ({ baseState with lastError := some "model failed" }, []) :=
  claim_C6_sticky_error.2.1 _ (.ok [(1 : ℚ)]) 0 1 (by decide)

/-- Claim C5: with a positive auto-invoke threshold, a post-phase event
schedules a background run only when no run is in flight
(`lastRunNumSamples ≥ 0`) and the sample count has advanced by at least
the threshold since the previous run's start mark; the sentinel `-1` is
written before scheduling; a state already carrying the sentinel never
schedules; and a completed, non-skipped run restores the field to the
nonnegative sample-count snapshot, so runs cannot overlap. -/
theorem claim_C5_schedule (s : TFState) (t : Int) :
    ((newData s t true).2.1 = true →
      s.autoInvokeSamples ≠ 0 ∧ 0 ≤ s.lastRunNumSamples ∧
      (s.autoInvokeSamples : Int) ≤
        ((newData s t true).1.numSamples : Int) - s.lastRunNumSamples ∧
      (newData s t true).1.lastRunNumSamples = -1) ∧
    (s.lastRunNumSamples = -1 → (newData s t true).2.1 = false) ∧
    (∀ res t0 t1, jsTruthyStr s.lastError = false →
      (runModel s res t0 t1).1.lastRunNumSamples = (s.numSamples : Int) ∧
      (0 : Int) ≤ (s.numSamples : Int)) := by
  have hrun : ∀ res t0 t1, jsTruthyStr s.lastError = false →
      (runModel s res t0 t1).1.lastRunNumSamples = (s.numSamples : Int) ∧
      (0 : Int) ≤ (s.numSamples : Int) := by
    intro res t0 t1 h
    have hne : jsTruthyStr s.lastError ≠ true := by simp [h]
    cases res with
    | ok r => exact ⟨by simp [runModel, hne], Int.natCast_nonneg _⟩
    | error e => exact ⟨by simp [runModel, hne], Int.natCast_nonneg _⟩
  refine ⟨?_, ?_, hrun⟩
  · intro hsch
    by_cases hn : nFramesOf (elapsedOf s t) (s.samplingInterval : Int) = 0
    · simp only [newData] at hsch
      rw [if_pos hn] at hsch
      simp at hsch
    · simp only [newData] at hsch ⊢
      rw [if_neg hn] at hsch ⊢
      simp only [if_pos rfl, newData_post_collapse] at hsch ⊢
      by_cases hc : (pushData { s with lastSample := some t }).1.autoInvokeSamples ≠ 0 ∧
          0 ≤ (pushData { s with lastSample := some t }).1.lastRunNumSamples ∧
          ((pushData { s with lastSample := some t }).1.autoInvokeSamples : Int) ≤
            ((pushData { s with lastSample := some t }).1.numSamples : Int) -
              (pushData { s with lastSample := some t }).1.lastRunNumSamples
      · rw [if_pos hc] at hsch ⊢
        have h1 := pushData_auto { s with lastSample := some t }
        have h2 := pushData_lastRun { s with lastSample := some t }
        refine ⟨?_, ?_, ?_, rfl⟩
        · have := hc.1
          rw [h1] at this
          exact this
        · have := hc.2.1
          rw [h2] at this
          exact this
        · have := hc.2.2
          rw [h1, h2] at this
          exact this
      · rw [if_neg hc] at hsch
        simp at hsch
  · intro hflight
    by_cases hn : nFramesOf (elapsedOf s t) (s.samplingInterval : Int) = 0
    · simp only [newData]
      rw [if_pos hn]
    · simp only [newData]
      rw [if_neg hn]
      simp only [if_pos rfl, newData_post_collapse]
      have h2 := pushData_lastRun { s with lastSample := some t }
      by_cases hc : (pushData { s with lastSample := some t }).1.autoInvokeSamples ≠ 0 ∧
          0 ≤ (pushData { s with lastSample := some t }).1.lastRunNumSamples ∧
          ((pushData { s with lastSample := some t }).1.autoInvokeSamples : Int) ≤
            ((pushData { s with lastSample := some t }).1.numSamples : Int) -
              (pushData { s with lastSample := some t }).1.lastRunNumSamples
      · exfalso
        have h3 := hc.2.1
        rw [h2] at h3
        have h4 : ({ s with lastSample := some t } : TFState).lastRunNumSamples =
            s.lastRunNumSamples := rfl
        rw [h4, hflight] at h3
        omega
      · rw [if_neg hc]
        split <;> rfl

/-- A host state one sample away from its auto-invoke threshold. -/
def schedState : TFState :=
  { baseState with
    autoInvokeSamples := 1
    lastSample := some 1000
    samplingInterval := 100
    samplesInWindow := 1 }

/-- Witness for C5: on `schedState` a post-phase tick at `t = 1100`
schedules a run and writes the `-1` sentinel. -/
theorem claim_C5_witness :
    schedState.autoInvokeSamples ≠ 0 ∧ 0 ≤ schedState.lastRunNumSamples ∧
    (schedState.autoInvokeSamples : Int) ≤
      ((newData schedState 1100 true).1.numSamples : Int) -
        schedState.lastRunNumSamples ∧
    (newData schedState 1100 true).1.lastRunNumSamples = -1 :=
  (claim_C5_schedule schedState 1100).1 (by decide)

/-- Claim C1: the 8-byte header reaches offset 0 of the region only once
the cumulative bytes received reach the declared size; an upload aborted
before that point leaves the header slot holding erased flash; and any
region whose first `Int32LE` word reads `-1` is reported as no model
present (`modelBuffer` null, model size 0). -/
theorem claim_C1_header_commit (s : TFState) (sz : Nat) (chunks : List Buf)
    (loadRes : Except String Unit) (arenaBytes : Nat)
    (hacc : (sz : Int) ≤ (s.binTotalSize : Int) - 8) (h8 : 8 ≤ sz) :
    ((uploadLoop (List.replicate sz 255) (List.replicate 8 0) 0 sz chunks).outcome =
        .completed →
      sz ≤ (uploadLoop (List.replicate sz 255) (List.replicate 8 0) 0 sz chunks).off) ∧
    ((uploadLoop (List.replicate sz 255) (List.replicate 8 0) 0 sz chunks).outcome ≠
        .completed →
      (uploadLoop (List.replicate sz 255) (List.replicate 8 0) 0 sz
          chunks).store.take 8 = List.replicate 8 255 ∧
      modelBufferOf (readModel s sz chunks loadRes arenaBytes).1 = none ∧
      modelSizeOf (readModel s sz chunks loadRes arenaBytes).1 = 0) ∧
    (∀ r : Buf, readI32LE r 0 = -1 →
      modelBufferOf { s with binRegion := some r } = none ∧
      modelSizeOf { s with binRegion := some r } = 0) := by
  have htake0 : (List.replicate sz (255 : Nat)).take 8 = List.replicate 8 255 := by
    rw [List.take_replicate]
    congr 1
    omega
  have hinv := uploadLoop_inv chunks (List.replicate sz 255) (List.replicate 8 0) 0 sz
    (by simp) h8 (by simp) htake0
  refine ⟨hinv.2.2.1, fun hne => ⟨hinv.2.1 hne,
    (readModel_abort s sz chunks loadRes arenaBytes hacc h8 hne).1,
    (readModel_abort s sz chunks loadRes arenaBytes hacc h8 hne).2.1⟩, ?_⟩
  intro r hr
  constructor
  · simp only [modelBufferOf, hr, if_pos]
  · simp only [modelSizeOf, modelBufferOf, hr, if_pos]

/-- Witness for C1: an 8-byte declaration whose stream closes immediately
leaves no model. -/
theorem claim_C1_witness :
    modelBufferOf (readModel baseState 8 [] (Except.ok ()) 0).1 = none ∧
    modelSizeOf (readModel baseState 8 [] (Except.ok ()) 0).1 = 0 := by
  have h := claim_C1_header_commit baseState 8 [] (Except.ok ()) 0 (by decide) (by decide)
  exact ⟨(h.2.1 (by decide)).2.1, (h.2.1 (by decide)).2.2⟩

/-- A valid configuration blob: interval 100 ms, window of 2 frames, one
collector entry declaring a single `U8` byte (`sample_size = 1`). -/
def cfgU8 : Buf :=
  [100, 0, 2, 0, 0, 0, 0, 0] ++ [0, 0, 0, 0, 0, 0, 0, 0, 0, 0, 0, 0, 0, 1, 8, 0]

/-- Claim C2 counterexample: configuring `cfgU8` allocates a window buffer
of `2 × 4 = 8` bytes (each `U8` element is stored as 4 float32 bytes),
while `samplesInWindow × Σ declared sampleSizeBytes = 2 × 1 = 2`. -/
theorem claim_C2_counterexample :
    (configureInputs { baseState with inputSettings := some cfgU8 }).map
      (fun s => s.samplesBuffer.length) = some 8 ∧
    specWindowBytes cfgU8 = 2 ∧ (8 : Nat) ≠ 2 := by
  refine ⟨by decide, by decide, by decide⟩

/-- Claim C2 (amended): the window buffer allocated by configuration is
`samplesInWindow × frameSize` bytes where `frameSize` is the sum over
collectors of `4·⌊sampleSizeBytes/elementWidth⌋` (the float32-expanded
frame size), not of the declared `sampleSizeBytes`; and a push on a
buffer holding `samplesInWindow` frames keeps exactly the
`samplesInWindow` most recent frames, in order, oldest first. -/
theorem claim_C2_window :
    (∀ entry c, mkCollector entry = some c →
      c.lastSample.length = 4 * (entry.getD 13 0 / sampleTypeSize c.sampleType)) ∧
    (∀ s s' : TFState, ∀ config, s.inputSettings = some config →
      configureInputs s = some s' →
      s'.samplesBuffer.length = s'.samplesInWindow * s'.sampleSize ∧
      s'.sampleSize = (s'.collectors.map (fun c => c.lastSample.length)).sum ∧
      s'.samplesInWindow = readU16LE config 2 ∧ s'.numSamples = 0) ∧
    (∀ s : TFState, ∀ frames : List Buf, s.samplesBuffer = frames.flatten →
      frames.length = s.samplesInWindow →
      (∀ f ∈ frames, f.length = s.sampleSize) →
      0 < s.samplesInWindow →
      ((s.collectors.map (fun c => c.lastSample)).map List.length).sum = s.sampleSize →
      (pushData s).1.samplesBuffer =
        (frames.drop 1 ++ [(s.collectors.map (fun c => c.lastSample)).flatten]).flatten ∧
      (frames.drop 1 ++
        [(s.collectors.map (fun c => c.lastSample)).flatten]).length =
          s.samplesInWindow ∧
      (∀ f ∈ frames.drop 1 ++ [(s.collectors.map (fun c => c.lastSample)).flatten],
        f.length = s.sampleSize) ∧
      (pushData s).1.numSamples = s.numSamples + 1) := by
  refine ⟨?_, ?_, ?_⟩
  · intro entry c h
    rw [mkCollector] at h
    cases hst : sampleTypeOfByte (entry.getD 14 0) with
    | none => rw [hst] at h; cases h
    | some st =>
      rw [hst] at h
      have hc := Option.some.inj h
      subst hc
      simp [List.length_replicate, Nat.mul_comm]
  · intro s s' config hin hcfg
    rw [configureInputs, hin] at hcfg
    dsimp only at hcfg
    cases hp : parseEntries config 8 with
    | none => rw [hp] at hcfg; cases hcfg
    | some colls =>
      rw [hp] at hcfg
      have he := Option.some.inj hcfg
      subst he
      refine ⟨?_, rfl, rfl, rfl⟩
      simp [List.length_replicate]
  · intro s frames hbuf hlen heach hW hF
    refine ⟨pushData_window hbuf hlen heach hW hF, ?_, ?_, pushData_numSamples s⟩
    · simp only [List.length_append, List.length_drop, List.length_cons,
        List.length_nil, hlen]
      omega
    · intro f hf
      rcases List.mem_append.mp hf with hf1 | hf2
      · exact heach f (List.drop_subset 1 frames hf1)
      · have : f = (s.collectors.map (fun c => c.lastSample)).flatten := by
          simpa using hf2
        rw [this, List.length_flatten, hF]

/-- An in-flight window state for the C2 witness: two 4-byte frames, one
collector staging the bytes `[9, 10, 11, 12]`. -/
def winState : TFState :=
  { baseState with
    samplesBuffer := [1, 2, 3, 4, 5, 6, 7, 8]
    sampleSize := 4
    samplesInWindow := 2
    collectors := [{ devId := none
                     serviceClass := 0
                     requiredServiceNum := 0
                     sampleType := .U8
                     sampleShift := 0
                     sampleMult := 1
                     numElts := 1
                     lastSample := [9, 10, 11, 12] }] }

/-- Witness for C2: pushing on `winState` drops the oldest frame and
appends the staged one. -/
theorem claim_C2_witness :
    (pushData winState).1.samplesBuffer = [5, 6, 7, 8, 9, 10, 11, 12] := by
  have h := claim_C2_window.2.2 winState [[1, 2, 3, 4], [5, 6, 7, 8]]
    (by decide) (by decide) (by decide) (by decide) (by decide)
  exact h.1.trans (by decide)

/-- Claim C8: writing a configuration blob byte-identical to the stored
one is a complete no-op (the state is returned unchanged: counters,
collectors and window buffer included); writing a different blob persists
it and rebuilds collectors and the window buffer from scratch with the
counters reset to zero. -/
theorem claim_C8_config_idempotent :
    (∀ s : TFState, ∀ d, s.inputSettings = some d → handleSetInputs s d = some s) ∧
    (∀ s s' : TFState, ∀ d,
      (∀ cur, s.inputSettings = some cur → d ≠ cur) →
      handleSetInputs s d = some s' →
      s'.inputSettings = some d ∧
      (∃ colls, parseEntries d 8 = some colls ∧ s'.collectors = colls) ∧
      s'.numSamples = 0 ∧ s'.lastRunNumSamples = 0 ∧
      s'.sampleSize = (s'.collectors.map (fun c => c.lastSample.length)).sum ∧
      s'.samplesBuffer = List.replicate (readU16LE d 2 * s'.sampleSize) 0 ∧
      s'.samplesInWindow = readU16LE d 2 ∧
      s'.samplingInterval = readU16LE d 0) := by
  constructor
  · intro s d h
    rw [handleSetInputs, h]
    simp
  · intro s s' d hne h
    have hcond : (match s.inputSettings with
        | some cur => d == cur
        | none => false) = false := by
      cases hin : s.inputSettings with
      | none => rfl
      | some cur =>
        simp only [beq_eq_false_iff_ne, ne_eq]
        exact hne cur hin
    rw [handleSetInputs, hcond] at h
    simp only [Bool.false_eq_true, if_false] at h
    rw [configureInputs] at h
    dsimp only at h
    cases hp : parseEntries d 8 with
    | none => rw [hp] at h; cases h
    | some colls =>
      rw [hp] at h
      have he := Option.some.inj h
      subst he
      exact ⟨rfl, ⟨colls, rfl, rfl⟩, rfl, rfl, rfl, rfl, rfl, rfl⟩

/-- Witness for C8: rewriting the stored blob `[1,2,3]` is a no-op. -/
theorem claim_C8_witness :
    handleSetInputs { baseState with inputSettings := some [1, 2, 3] } [1, 2, 3] =
      some { baseState with inputSettings := some [1, 2, 3] } :=
  claim_C8_config_idempotent.1 { baseState with inputSettings := some [1, 2, 3] }
    [1, 2, 3] rfl

/-- A host whose model previously loaded successfully: a committed blob in
flash (first word 0, not −1) and no sticky error. -/
def loadedState : TFState :=
  { baseState with binRegion := some (List.replicate 16 0) }

/-- Claim C9 counterexample: on a host whose previous model loaded fine
(`lastError` null), `SetModel` declaring 1024 bytes with only 512
received leaves `LastError` reading `""`, not `"no model"` (ModelSize
does read 0): the abort path never updates the sticky error. -/
theorem claim_C9_counterexample :
    lastErrorText (readModel loadedState 1024 [List.replicate 512 0]
      (Except.ok ()) 0).1 = "" ∧
    "" ≠ "no model" ∧
    modelSizeOf (readModel loadedState 1024 [List.replicate 512 0]
      (Except.ok ()) 0).1 = 0 := by
  have habort : (uploadLoop (List.replicate 1024 255) (List.replicate 8 0) 0 1024
      [List.replicate 512 0]).outcome ≠ .completed := by
    intro hc
    have hinv := uploadLoop_inv [List.replicate 512 0] (List.replicate 1024 255)
      (List.replicate 8 0) 0 1024 (by rw [List.length_replicate]) (by norm_num)
      (by norm_num) (by rw [List.take_replicate]; rfl)
    have h1 := hinv.2.2.1 hc
    have h2 := hinv.2.2.2
    have h3 : (List.map List.length [List.replicate 512 (0 : Nat)]).sum = 512 := by
      rw [List.map_cons, List.map_nil, List.length_replicate, List.sum_cons,
        List.sum_nil]
      omega
    omega
  have h := readModel_abort loadedState 1024 [List.replicate 512 0] (Except.ok ()) 0
    (by decide) (by decide) habort
  refine ⟨?_, by decide, h.2.1⟩
  rw [lastErrorText, h.2.2]
  rfl

/-- Claim C9 (amended): a `SetModel` declaring `sz` bytes (accepted,
`sz ≥ 8`) whose stream closes with fewer than `sz` bytes received leaves
`ModelSize` reading 0; the `LastError` register is unchanged by the abort
(the abort path never calls `loadModel`), so it reads `"no model"`
exactly when that was already the sticky state — e.g. on a device that
has never loaded a model — and any subsequent load attempt over the
uncommitted region sets it to `"no model"`. -/
theorem claim_C9_aborted_upload (s : TFState) (sz : Nat) (chunks : List Buf)
    (loadRes : Except String Unit) (arenaBytes : Nat)
    (hacc : (sz : Int) ≤ (s.binTotalSize : Int) - 8) (h8 : 8 ≤ sz)
    (hshort : (chunks.map List.length).sum < sz) :
    modelSizeOf (readModel s sz chunks loadRes arenaBytes).1 = 0 ∧
    (readModel s sz chunks loadRes arenaBytes).1.lastError = s.lastError ∧
    (s.lastError = some "no model" →
      lastErrorText (readModel s sz chunks loadRes arenaBytes).1 = "no model") ∧
    (∀ s' : TFState, modelBufferOf s' = none →
      (loadModelStep s' loadRes arenaBytes).lastError = some "no model") := by
  have htake0 : (List.replicate sz (255 : Nat)).take 8 = List.replicate 8 255 := by
    rw [List.take_replicate]
    congr 1
    omega
  have hinv := uploadLoop_inv chunks (List.replicate sz 255) (List.replicate 8 0) 0 sz
    (by simp) h8 (by simp) htake0
  have habort : (uploadLoop (List.replicate sz 255) (List.replicate 8 0) 0 sz
      chunks).outcome ≠ .completed := by
    intro hc
    have h1 := hinv.2.2.1 hc
    have h2 := hinv.2.2.2
    omega
  have h := readModel_abort s sz chunks loadRes arenaBytes hacc h8 habort
  refine ⟨h.2.1, h.2.2, fun hno => ?_, fun s' hmb => ?_⟩
  · rw [lastErrorText, h.2.2, hno]
    rfl
  · have hmb' : modelBufferOf { s' with lastError := none } = modelBufferOf s' := rfl
    simp only [loadModelStep, hmb', hmb]

/-- Witness for C9: declared size 1024, a single 512-byte chunk, stream
closed: model size reads 0 and a fresh device's sticky "no model" text is
still reported. -/
theorem claim_C9_witness :
    modelSizeOf (readModel { baseState with lastError := some "no model" } 1024
      [List.replicate 512 0] (Except.ok ()) 0).1 = 0 ∧
    lastErrorText (readModel { baseState with lastError := some "no model" } 1024
      [List.replicate 512 0] (Except.ok ()) 0).1 = "no model" := by
  have h := claim_C9_aborted_upload { baseState with lastError := some "no model" }
    1024 [List.replicate 512 0] (Except.ok ()) 0 (by decide) (by decide)
    (by rw [List.map_cons, List.map_nil, List.length_replicate, List.sum_cons,
          List.sum_nil]
        omega)
  exact ⟨h.1, h.2.2.1 rfl⟩

end TF
